import Mathlib

/-!
Verification of the incremental disclosure-event harvester (`src/app.py`).

The development shallowly embeds the program: Python dicts become
insertion-ordered association lists, the persistent `SqliteDict` cache
becomes an insertion-ordered list of `(hash, record)` pairs, machine
hashing (`hashlib.sha1`) is embedded bit-faithfully over `Nat` with
explicit reduction modulo `2 ^ 32`, and the crawl loop of
`fetch_new_events` becomes a structural recursion over the stream of
records produced by `scrap_site`.  External collaborators (BeautifulSoup,
`dateparser`, `python-slugify`, the HTTP transport) are modelled as
abstract inputs or as small pure functions faithful to their documented
behaviour on the ASCII inputs the program feeds them.  `deduplicate` is
embedded as the program executes it at its only call site: its argument
is the one-shot `parse_page` generator, and `zip(map(make_hash, items),
items)` draws both components from that single iterator, pairing each
drawn record's hash with the *following* record.
-/

set_option maxRecDepth 100000

/-- Reduce a natural number to a 32-bit machine word, as Python's
`& 0xffffffff`-free arithmetic inside `hashlib` does implicitly. -/
def w32 (n : Nat) : Nat := n % 4294967296

/-- Rotate a 32-bit word left by `k` bits (`k < 32`). -/
def rotl (k x : Nat) : Nat := w32 (x <<< k) ||| (x >>> (32 - k))

/-- Big-endian packing of a 64-byte chunk into 32-bit words. -/
def toWords : List Nat → List Nat
  | b0 :: b1 :: b2 :: b3 :: rest =>
      ((((b0 <<< 8) ||| b1) <<< 8 ||| b2) <<< 8 ||| b3) :: toWords rest
  | _ => []

/-- Extend the message schedule, prepending `n` further words to the
reversed schedule (w[i] = rotl1 (w[i-3] xor w[i-8] xor w[i-14] xor
w[i-16]); with the newest word at the head those are at positions
2, 7, 13, 15). -/
def sha1ExtendRev (w : List Nat) : Nat → List Nat
  | 0 => w
  | n + 1 =>
      sha1ExtendRev
        (rotl 1 ((w.getD 2 0) ^^^ (w.getD 7 0) ^^^ (w.getD 13 0) ^^^
          (w.getD 15 0)) :: w) n

/-- The full 80-word SHA-1 message schedule of one chunk. -/
def sha1Extend (w : List Nat) (n : Nat) : List Nat :=
  (sha1ExtendRev w.reverse n).reverse

/-- One SHA-1 compression round. -/
def sha1Round (i wi : Nat) (s : Nat × Nat × Nat × Nat × Nat) :
    Nat × Nat × Nat × Nat × Nat :=
  match s with
  | (a, b, c, d, e) =>
    let f :=
      if i < 20 then (b &&& c) ||| ((4294967295 ^^^ b) &&& d)
      else if i < 40 then b ^^^ c ^^^ d
      else if i < 60 then (b &&& c) ||| (b &&& d) ||| (c &&& d)
      else b ^^^ c ^^^ d
    let k :=
      if i < 20 then 1518500249
      else if i < 40 then 1859775393
      else if i < 60 then 2400959708
      else 3395469782
    (w32 (rotl 5 a + f + e + k + wi), a, rotl 30 b, c, d)

/-- Process one 64-byte chunk, updating the running SHA-1 state. -/
def sha1Chunk (h : Nat × Nat × Nat × Nat × Nat) (chunk : List Nat) :
    Nat × Nat × Nat × Nat × Nat :=
  let ws := sha1Extend (toWords chunk) 64
  let s := ws.enum.foldl (fun st p => sha1Round p.1 p.2 st) h
  (w32 (h.1 + s.1), w32 (h.2.1 + s.2.1), w32 (h.2.2.1 + s.2.2.1),
    w32 (h.2.2.2.1 + s.2.2.2.1), w32 (h.2.2.2.2 + s.2.2.2.2))

/-- The 8-byte big-endian encoding of the message bit length. -/
def lenBytes (n : Nat) : List Nat :=
  [(n >>> 56) % 256, (n >>> 48) % 256, (n >>> 40) % 256, (n >>> 32) % 256,
   (n >>> 24) % 256, (n >>> 16) % 256, (n >>> 8) % 256, n % 256]

/-- SHA-1 padding: `0x80`, zeros to 56 mod 64, then the bit length. -/
def sha1Pad (msg : List Nat) : List Nat :=
  msg ++ [128] ++ List.replicate ((64 - ((msg.length + 9) % 64)) % 64) 0 ++
    lenBytes (8 * msg.length)

/-- Split a byte list into 64-byte chunks (structural recursion on a
fuel bound so the kernel can evaluate it). -/
def chunks64Aux : Nat → List Nat → List (List Nat)
  | 0, _ => []
  | _, [] => []
  | fuel + 1, l => l.take 64 :: chunks64Aux fuel (l.drop 64)

/-- Split a byte list (whose length is a multiple of 64) into chunks. -/
def chunks64 (l : List Nat) : List (List Nat) := chunks64Aux l.length l

/-- The SHA-1 digest of a byte string, as five 32-bit words. -/
def sha1Words (msg : List Nat) : Nat × Nat × Nat × Nat × Nat :=
  (chunks64 (sha1Pad msg)).foldl sha1Chunk
    (1732584193, 4023233417, 2562383102, 271733878, 3285377520)

/-- A lowercase hexadecimal digit. -/
def hexDigit (n : Nat) : Char :=
  if n < 10 then Char.ofNat (48 + n) else Char.ofNat (87 + n)

/-- Eight lowercase hex characters for one 32-bit word. -/
def toHex8 (n : Nat) : List Char :=
  [hexDigit ((n >>> 28) % 16), hexDigit ((n >>> 24) % 16),
   hexDigit ((n >>> 20) % 16), hexDigit ((n >>> 16) % 16),
   hexDigit ((n >>> 12) % 16), hexDigit ((n >>> 8) % 16),
   hexDigit ((n >>> 4) % 16), hexDigit (n % 16)]

/-- `hashlib.sha1(...).hexdigest()` on a byte string. -/
def sha1hex (msg : List Nat) : String :=
  match sha1Words msg with
  | (a, b, c, d, e) =>
      String.mk (toHex8 a ++ toHex8 b ++ toHex8 c ++ toHex8 d ++ toHex8 e)

/-- The UTF-8 bytes of an ASCII string (the program only hashes ASCII
canonical JSON in the modelled scenarios). -/
def strBytes (s : String) : List Nat := s.data.map Char.toNat

/-- A scraped record: a Python dict with string keys and string values,
modelled as an insertion-ordered association list (Python dicts preserve
insertion order and have no duplicate keys). -/
abbrev Record : Type := List (String × String)

/-- JSON escaping of one character, as `json.dumps` performs it on the
ASCII inputs the program hashes. -/
def jsonEscapeChar (c : Char) : List Char :=
  if c = '"' then ['\\', '"']
  else if c = '\\' then ['\\', '\\']
  else if c = Char.ofNat 10 then ['\\', 'n']
  else if c = Char.ofNat 9 then ['\\', 't']
  else if c = Char.ofNat 13 then ['\\', 'r']
  else if c = Char.ofNat 8 then ['\\', 'b']
  else if c = Char.ofNat 12 then ['\\', 'f']
  else if c.toNat < 32 then
    ['\\', 'u', '0', '0', hexDigit ((c.toNat >>> 4) % 16), hexDigit (c.toNat % 16)]
  else [c]

/-- `json.dumps` of a Python string: quoted and escaped. -/
def jsonDumpsStr (s : String) : String :=
  String.mk ('"' :: s.data.flatMap jsonEscapeChar ++ ['"'])

/-- Boolean lexicographic comparison of character lists by code point,
the order Python uses to compare (and hence sort) strings. -/
def charListLe : List Char → List Char → Bool
  | [], _ => true
  | _ :: _, [] => false
  | a :: as, b :: bs =>
      if a.toNat < b.toNat then true
      else if b.toNat < a.toNat then false
      else charListLe as bs

/-- Python string comparison `a <= b`. -/
def strLeB (a b : String) : Bool := charListLe a.data b.data

/-- The key order used by `json.dumps(..., sort_keys=True)`. -/
def keyLe (p q : String × String) : Prop := strLeB p.1 q.1 = true

instance : DecidableRel keyLe := fun p q => instDecidableEqBool (strLeB p.1 q.1) true

/-- `sorted` on the key/value pairs of a dict by key, as
`json.dumps(..., sort_keys=True)` performs it. -/
def sortPairs (r : Record) : List (String × String) :=
  List.insertionSort keyLe r

/-- `json.dumps(record, sort_keys=True)`: canonical JSON of a dict of
strings, with the default `', '` and `': '` separators. -/
def jsonDumpsRecord (r : Record) : String :=
  "\x7b" ++ ", ".intercalate
    ((sortPairs r).map fun p => jsonDumpsStr p.1 ++ ": " ++ jsonDumpsStr p.2) ++ "\x7d"

/-- `make_hash` (src/app.py line 136) on a record:
`sha1(json.dumps(obj, sort_keys=True).encode()).hexdigest()`. -/
def make_hash (r : Record) : String := sha1hex (strBytes (jsonDumpsRecord r))

/-- `make_hash` applied to a plain string (as `make_path` does with the
summary). -/
def make_hashStr (s : String) : String := sha1hex (strBytes (jsonDumpsStr s))

/-- Inserting a key/value pair into a Python dict: if the key is present
the value is updated in place (position preserved), otherwise the pair is
appended. -/
def dictUpsert (m : List (String × Record)) (k : String) (v : Record) :
    List (String × Record) :=
  if m.any (fun p => p.1 == k) then
    m.map (fun p => if p.1 == k then (p.1, v) else p)
  else m ++ [(k, v)]

/-- The pairs `zip(map(make_hash, items), items)` actually produces when
`items` is the one-shot `parse_page` generator: `map` and `zip`'s second
component draw from the same iterator, so `zip` pairs each drawn hash
with the next record — `(make_hash r0, r1), (make_hash r2, r3), ...` —
and a trailing unpaired record is dropped when the iterator runs dry. -/
def zipAliased : List Record → List (String × Record)
  | r0 :: r1 :: rest => (make_hash r0, r1) :: zipAliased rest
  | _ => []

/-- `deduplicate` (src/app.py line 108) as the program executes it at its
only call site `deduplicate(parse_page(resp.text))`:
`dict(zip(map(make_hash, items), items)).values()` over the one-shot
parser generator (aliased pairs), with Python dict construction
semantics. -/
def deduplicate (items : List Record) : List Record :=
  ((zipAliased items).foldl (fun m p => dictUpsert m p.1 p.2) []).map Prod.snd

/-- `add_summary` (src/app.py line 113): enrich each record with the
summary fetched from its detail page.  The network fetch is an external
collaborator, modelled by the oracle `fetchSummary`; `{**item,
'summary': summary}` appends the new key after the existing ones. -/
def add_summary (fetchSummary : Record → String) (items : List Record) :
    List Record :=
  items.map (fun it => it ++ [("summary", fetchSummary it)])

/-- `scrap_site` (src/app.py line 124): each page's parsed records pass
through `deduplicate` (with its generator aliasing, so only the
odd-indexed survivors remain) and `add_summary`; a page whose resulting
item list is empty — any page parsing to zero or one record — stops the
pagination, otherwise the items are yielded and the next page is
fetched.  The paginated portal responses are modelled as the list of
per-page parsed records. -/
def scrap_site (fetchSummary : Record → String) :
    List (List Record) → List Record
  | [] => []
  | page :: rest =>
      let items := add_summary fetchSummary (deduplicate page)
      if items.isEmpty then [] else items ++ scrap_site fetchSummary rest

/-- The persistent `SqliteDict('.cache')`, modelled as an
insertion-ordered association list from content hash to record. -/
abbrev Cache : Type := List (String × Record)

/-- `cache_object` (src/app.py line 140): insert-if-absent, returning
`true` if the key already existed (cache unchanged) and `false` if the
record was newly inserted. -/
def cache_object (obj : Record) (cache : Cache) : Bool × Cache :=
  let key := make_hash obj
  if cache.any (fun p => p.1 == key) then (true, cache)
  else (false, cache ++ [(key, obj)])

/-- Lookup in the cache (`cache[key]`). -/
def cacheLookup (k : String) (cache : Cache) : Option Record :=
  (cache.find? (fun p => p.1 == k)).map Prod.snd

/-- The loop of `fetch_new_events` (src/app.py line 194):
`n = 0; for n, item in enumerate(...):  if cache_object(item): break`.
`idx` is the `enumerate` counter of the current item and `n` the value
the Python variable `n` held when the loop body last started (0 before
the first iteration); the result is the printed `n` and the final
cache. -/
def fetchFrom : List Record → Cache → Nat → Nat → Nat × Cache
  | [], cache, _, n => (n, cache)
  | item :: rest, cache, idx, _ =>
      match cache_object item cache with
      | (true, c) => (idx, c)
      | (false, c) => fetchFrom rest c (idx + 1) idx

/-- `fetch_new_events` (src/app.py line 194): run the crawl over the
stream produced by `scrap_site`, returning the printed count and the
final cache. -/
def fetch_new_events (fetchSummary : Record → String)
    (pages : List (List Record)) (cache : Cache) : Nat × Cache :=
  fetchFrom (scrap_site fetchSummary pages) cache 0 0

/-- The records on which the loop of `fetch_new_events` actually calls
`cache_object` (the crawl's insertion submissions, in order). -/
def submittedRecords : List Record → Cache → List Record
  | [], _ => []
  | item :: rest, cache =>
      match cache_object item cache with
      | (true, _) => [item]
      | (false, c) => item :: submittedRecords rest c

/-- The number of `cache_object` calls of the run that report a new
insertion (the run's true yield of newly cached records). -/
def insertedCount : List Record → Cache → Nat
  | [], _ => 0
  | item :: rest, cache =>
      match cache_object item cache with
      | (true, _) => 0
      | (false, c) => 1 + insertedCount rest c

/-- All records of the list are new to the cache when inserted in
sequence (no `cache_object` call reports a pre-existing key). -/
def allNovel : List Record → Cache → Bool
  | [], _ => true
  | item :: rest, cache =>
      match cache_object item cache with
      | (true, _) => false
      | (false, c) => allNovel rest c

/-- The cache state after inserting the records of the list in order. -/
def cacheAfter : List Record → Cache → Cache
  | [], cache => cache
  | item :: rest, cache => cacheAfter rest (cache_object item cache).2

/-- Python's `.lower()` on the ASCII strings the program filters. -/
def strLower (s : String) : String := String.mk (s.data.map Char.toLower)

/-- Is `pat` a prefix of `l`? -/
def listIsPfxOf : List Char → List Char → Bool
  | [], _ => true
  | _ :: _, [] => false
  | a :: as, b :: bs => a == b && listIsPfxOf as bs

/-- Is `pat` a contiguous sublist of `hay`? -/
def listHasSub (pat : List Char) : List Char → Bool
  | [] => listIsPfxOf pat []
  | c :: rest => listIsPfxOf pat (c :: rest) || listHasSub pat rest

/-- Python's substring test `needle in hay`. -/
def strContains (hay needle : String) : Bool := listHasSub needle.data hay.data

/-- `includes` (src/app.py line 151): true when no search terms were
passed, or the text contains one of the terms case-insensitively. -/
def includes (text : String) (terms : List String) : Bool :=
  terms.isEmpty ||
    terms.any (fun term => strContains (strLower text) (strLower term))

/-- `item['org']`-style field access on a record (the fields the report
path accesses are always present on enriched records). -/
def itemGet (r : Record) (k : String) : String :=
  ((r.find? (fun p => p.1 == k)).map Prod.snd).getD ""

/-- `match_search` (src/app.py line 160): a record matches when its
organization passes the org filters and its summary passes the summary
filters. -/
def match_search (item : Record) (org summary : List String) : Bool :=
  includes (itemGet item "org") org && includes (itemGet item "summary") summary

/-- An anchor element as BeautifulSoup presents it to `parse_page`:
its text and its optional `href` attribute. -/
structure Anchor where
  text : String
  href : Option String
deriving DecidableEq

/-- A table cell: its text and contained anchors. -/
structure Cell where
  text : String
  anchors : List Anchor
deriving DecidableEq

/-- A page as BeautifulSoup presents it to `parse_page`: `find('table')`
either fails (`none`) or produces the list of `tr` rows, each a list of
`td` cells. -/
structure PageDoc where
  table : Option (List (List Cell))
deriving DecidableEq

/-- Parsing of one row of the result table: `cols[0].text`,
`cols[1].findAll('a')`, `anchors[0].text`, `anchors[1].text`,
`anchors[1].attrs['href']`; a missing cell, anchor or attribute raises. -/
def parseRow (row : List Cell) : Except String Record :=
  match row with
  | c0 :: c1 :: _ =>
      match c1.anchors with
      | a0 :: a1 :: _ =>
          match a1.href with
          | some url =>
              .ok [("ts", c0.text), ("url", url), ("org", a0.text), ("title", a1.text)]
          | none => .error "KeyError"
      | _ => .error "IndexError"
  | _ => .error "IndexError"

/-- `parse_page` (src/app.py line 89): `soup.find('table')` returning
`None` makes the subsequent `.findAll('tr')` raise `AttributeError`;
an empty row list yields the empty sequence; otherwise each row is
parsed in order. -/
def parse_page (doc : PageDoc) : Except String (List Record) :=
  match doc.table with
  | none => .error "AttributeError"
  | some rows =>
      if rows.isEmpty then .ok [] else rows.mapM parseRow

/-- Splitting a character list at every occurrence of a separator
character, Python's `str.split(sep)` (empty parts kept). -/
def pySplitChar (sep : Char) : List Char → List (List Char)
  | [] => [[]]
  | x :: xs =>
      let r := pySplitChar sep xs
      if x == sep then [] :: r
      else
        match r with
        | h :: t => (x :: h) :: t
        | [] => [[x]]

/-- Python's `s.split(sep)` for a one-character separator. -/
def pySplit (sep : Char) (s : String) : List String :=
  (pySplitChar sep s.data).map String.mk

/-- `slugify` from the python-slugify library, modelled for ASCII input:
lowercase, every non-alphanumeric run becomes one hyphen, no leading or
trailing hyphen. -/
def slugify (s : String) : String :=
  "-".intercalate
    ((pySplitChar ' ' (s.data.map
        (fun c => if c.isAlphanum then c.toLower else ' '))).filter
      (fun t => t ≠ []) |>.map String.mk)

/-- Python's `s.split('-', 4)`: at most four splits, the remainder kept
whole in the fifth part. -/
def splitHyphenMax4 (s : String) : List String :=
  let parts := pySplit '-' s
  if parts.length ≤ 5 then parts
  else parts.take 4 ++ ["-".intercalate (parts.drop 4)]

/-- Python's slicing `s[:6]`. -/
def strTake6 (s : String) : String := String.mk (s.data.take 6)

/-- `dateparser.parse(ts).strftime('%Y-%m-%d')`, modelled for the
portal's `DD.MM.YYYY...` timestamps: the external `dateparser` library
turned into a pure reformatting of the date components. -/
def dateFmt (ts : String) : String :=
  match pySplit '.' ((pySplit ' ' ts).headD "") with
  | [d, m, y] => y ++ "-" ++ m ++ "-" ++ d
  | _ => ts

/-- `make_path` (src/app.py line 165): `reports/<date>/<slug>-<hash6>.txt`
with `slug = '-'.join(slugify(title).split('-', 4)[:-1])` and
`hash = make_hash(summary)[:6]`; the `Path` arithmetic becomes string
concatenation with `/`. -/
def make_path (base_path ts title summary : String) : String :=
  base_path ++ "/" ++ dateFmt ts ++ "/" ++
    "-".intercalate (splitHyphenMax4 (slugify title)).dropLast ++ "-" ++
    strTake6 (make_hashStr summary) ++ ".txt"

/-- The strict key order on pairs (used to identify the two sorted
permutations of a duplicate-key-free dict). -/
def keyLt (p q : String × String) : Prop := keyLe p q ∧ p.1 ≠ q.1

/-- The number of records that are field-identical duplicates of an
earlier record of the list (`seen` accumulates the earlier records). -/
def numDups : List Record → List Record → Nat
  | [], _ => 0
  | x :: xs, seen =>
      if seen.any (fun r => r == x) then 1 + numDups xs seen
      else numDups xs (seen ++ [x])

/-- A sample parsed listing record with the given detail url. -/
def pRec (u : String) : Record := [("url", u)]

/-- The corresponding enriched record (summary oracle returning "s"). -/
def eRec (u : String) : Record := [("url", u), ("summary", "s")]

/-- A sample cached record with the given organization. -/
def cRec (o : String) : Record := [("org", o)]

/-- A sample cache holding five records (hashes h1..h5 inserted in that
order); the third is the enriched record of detail url "a2". -/
def cache5 : Cache :=
  [(make_hash (cRec "c1"), cRec "c1"), (make_hash (cRec "c2"), cRec "c2"),
   (make_hash (eRec "a2"), eRec "a2"), (make_hash (cRec "c4"), cRec "c4"),
   (make_hash (cRec "c5"), cRec "c5")]

/-- Sanity: the embedded SHA-1 matches the `hashlib` test vector for "abc". -/
theorem sha1hex_abc :
    sha1hex (strBytes "abc") = "a9993e364706816aba3e25717850c26c9cd0d89d" := by
  decide

/-- Sanity: the embedded SHA-1 matches `hashlib` on the empty string. -/
theorem sha1hex_empty :
    sha1hex (strBytes "") = "da39a3ee5e6b4b0d3255bfef95601890afd80709" := by
  decide

/-- Sanity: the embedded SHA-1 matches `hashlib` on a two-chunk message
(71 bytes of "a"). -/
theorem sha1hex_two_chunks :
    sha1hex (List.replicate 71 97) = "0dfc17ce9eaca1570de957219f0c65c0c1f13654" := by
  decide

/-- Sanity: canonical JSON matches `json.dumps(..., sort_keys=True)` on a
dict inserted in the order `url`, `org`. -/
theorem jsonDumpsRecord_vector :
    jsonDumpsRecord [("url", "u"), ("org", "o")] = "\x7b\"org\": \"o\", \"url\": \"u\"\x7d" := by
  decide

/-- Sanity: `make_hash` matches `hashlib`/`json` on the same dict. -/
theorem make_hash_vector :
    make_hash [("url", "u"), ("org", "o")] = "6d8f4e21ac84d78f779b51014b7cc41b5c0074d9" := by
  decide

/-- Characters with equal code points are equal. -/
theorem charEq_of_toNat_eq {a b : Char} (h : a.toNat = b.toNat) : a = b :=
  Char.eq_of_val_eq (UInt32.eq_of_toBitVec_eq (BitVec.eq_of_toNat_eq h))

/-- The lexicographic comparison is total. -/
theorem charListLe_total (a : List Char) : ∀ (b : List Char),
    charListLe a b = true ∨ charListLe b a = true := by
  induction a with
  | nil => intro b; left; rfl
  | cons x xs ih =>
    intro b
    cases b with
    | nil => right; rfl
    | cons y ys =>
      by_cases h1 : x.toNat < y.toNat
      · left; simp [charListLe, h1]
      · by_cases h2 : y.toNat < x.toNat
        · right; simp [charListLe, h2]
        · rcases ih ys with h | h
          · left; simp [charListLe, h1, h2, h]
          · right; simp [charListLe, h1, h2, h]

/-- The lexicographic comparison is transitive. -/
theorem charListLe_trans (a : List Char) : ∀ (b c : List Char),
    charListLe a b = true → charListLe b c = true → charListLe a c = true := by
  induction a with
  | nil => intro b c _ _; rfl
  | cons x xs ih =>
    intro b c hab hbc
    cases b with
    | nil => simp [charListLe] at hab
    | cons y ys =>
      cases c with
      | nil => simp [charListLe] at hbc
      | cons z zs =>
        by_cases hxy : x.toNat < y.toNat
        · by_cases hyz : y.toNat < z.toNat
          · have : x.toNat < z.toNat := Nat.lt_trans hxy hyz
            simp [charListLe, this]
          · by_cases hzy : z.toNat < y.toNat
            · simp [charListLe, hyz, hzy] at hbc
            · have : x.toNat < z.toNat := by omega
              simp [charListLe, this]
        · by_cases hyx : y.toNat < x.toNat
          · simp [charListLe, hxy, hyx] at hab
          · by_cases hyz : y.toNat < z.toNat
            · have : x.toNat < z.toNat := by omega
              simp [charListLe, this]
            · by_cases hzy : z.toNat < y.toNat
              · simp [charListLe, hyz, hzy] at hbc
              · have hxz : ¬ x.toNat < z.toNat := by omega
                have hzx : ¬ z.toNat < x.toNat := by omega
                simp only [charListLe, if_neg hxy, if_neg hyx] at hab
                simp only [charListLe, if_neg hyz, if_neg hzy] at hbc
                simp only [charListLe, if_neg hxz, if_neg hzx]
                exact ih ys zs hab hbc

/-- The lexicographic comparison is antisymmetric. -/
theorem charListLe_antisymm (a : List Char) : ∀ (b : List Char),
    charListLe a b = true → charListLe b a = true → a = b := by
  induction a with
  | nil =>
    intro b _ hba
    cases b with
    | nil => rfl
    | cons y ys => simp [charListLe] at hba
  | cons x xs ih =>
    intro b hab hba
    cases b with
    | nil => simp [charListLe] at hab
    | cons y ys =>
      by_cases h1 : x.toNat < y.toNat
      · have h1' : ¬ y.toNat < x.toNat := by omega
        simp [charListLe, h1, h1'] at hba
      · by_cases h2 : y.toNat < x.toNat
        · simp [charListLe, h1, h2] at hab
        · have hxy : x = y := charEq_of_toNat_eq (by omega)
          simp only [charListLe, if_neg h1, if_neg h2] at hab
          simp only [charListLe, if_neg h2, if_neg h1] at hba
          rw [hxy, ih ys hab hba]

instance : IsTotal (String × String) keyLe :=
  ⟨fun p q => charListLe_total p.1.data q.1.data⟩

instance : IsTrans (String × String) keyLe :=
  ⟨fun p q r h1 h2 => charListLe_trans p.1.data q.1.data r.1.data h1 h2⟩

instance : IsAntisymm (String × String) keyLt :=
  ⟨fun p q h1 h2 =>
    absurd (String.ext (charListLe_antisymm p.1.data q.1.data h1.1 h2.1)) h1.2⟩

/-- Sorting by key sends permuted duplicate-key-free dicts to the same
pair list. -/
theorem sortPairs_eq_of_perm (r1 r2 : Record) (hp : r1.Perm r2)
    (hk : (r1.map Prod.fst).Nodup) : sortPairs r1 = sortPairs r2 := by
  have hk2 : (r2.map Prod.fst).Nodup := ((hp.map Prod.fst).nodup_iff).mp hk
  have hperm : (sortPairs r1).Perm (sortPairs r2) :=
    ((List.perm_insertionSort keyLe r1).trans hp).trans
      (List.perm_insertionSort keyLe r2).symm
  have hkey1 : ((sortPairs r1).map Prod.fst).Nodup :=
    (((List.perm_insertionSort keyLe r1).map Prod.fst).nodup_iff).mpr hk
  have hkey2 : ((sortPairs r2).map Prod.fst).Nodup :=
    (((List.perm_insertionSort keyLe r2).map Prod.fst).nodup_iff).mpr hk2
  have hne1 : (sortPairs r1).Pairwise (fun p q => p.1 ≠ q.1) :=
    List.pairwise_map.mp hkey1
  have hne2 : (sortPairs r2).Pairwise (fun p q => p.1 ≠ q.1) :=
    List.pairwise_map.mp hkey2
  have hs1 : (sortPairs r1).Pairwise keyLt :=
    ((List.sorted_insertionSort keyLe r1).and hne1).imp (fun h => h)
  have hs2 : (sortPairs r2).Pairwise keyLt :=
    ((List.sorted_insertionSort keyLe r2).and hne2).imp (fun h => h)
  exact List.eq_of_perm_of_sorted hperm hs1 hs2

/-- C8: Hash determinism: `make_hash` is a pure function of the record's
field values — two records with identical field values (the same
key/value pairs, possibly inserted in a different order, with no
duplicate keys as in any Python dict) yield the same hash regardless of
field insertion order, because `json.dumps(..., sort_keys=True)`
canonicalizes the key order before hashing. -/
theorem c8_hash_determinism (r1 r2 : Record) (hp : r1.Perm r2)
    (hk : (r1.map Prod.fst).Nodup) : make_hash r1 = make_hash r2 := by
  unfold make_hash jsonDumpsRecord
  rw [sortPairs_eq_of_perm r1 r2 hp hk]

/-- Witness for C8 at the records `{url: u, org: o}` and `{org: o, url: u}`. -/
theorem c8_witness :
    ([("url", "u"), ("org", "o")] : Record).Perm [("org", "o"), ("url", "u")] ∧
    (([("url", "u"), ("org", "o")] : Record).map Prod.fst).Nodup ∧
    make_hash [("url", "u"), ("org", "o")] = make_hash [("org", "o"), ("url", "u")] :=
  ⟨by decide, by decide,
    c8_hash_determinism [("url", "u"), ("org", "o")] [("org", "o"), ("url", "u")]
      (by decide) (by decide)⟩

/-- C4 (counterexample): the claim says a page markup with no result
table yields an empty sequence without error, but `soup.find('table')`
returns `None` there and `None.findAll('tr')` raises `AttributeError`:
`parse_page` on a table-less page is an error, not an empty sequence. -/
theorem c4_counterexample :
    parse_page ⟨none⟩ = Except.error "AttributeError" := rfl

/-- C4 (amended): for every input page markup in which a result table is
present but contains no rows, `parse_page` returns the empty sequence and
does not raise — the empty sequence is the pagination-exhausted signal;
(a page with no result table at all instead raises `AttributeError`, as
the counterexample shows). -/
theorem c4_empty_rows_empty_sequence (doc : PageDoc) (h : doc.table = some []) :
    parse_page doc = Except.ok [] := by
  simp [parse_page, h]

/-- Witness for C4 at the page document with an empty result table. -/
theorem c4_witness : parse_page ⟨some []⟩ = Except.ok [] :=
  c4_empty_rows_empty_sequence ⟨some []⟩ rfl

/-- `cache_object` either reports a hit and leaves the cache unchanged,
or appends the new pair. -/
theorem cache_object_cases (r : Record) (c : Cache) :
    cache_object r c = (true, c) ∨
    cache_object r c = (false, c ++ [(make_hash r, r)]) := by
  unfold cache_object
  by_cases h : c.any (fun p => p.1 == make_hash r) = true
  · left; simp [h]
  · right; simp [h]

/-- A key already bound in the cache keeps its value across any later
`cache_object` call. -/
theorem cacheLookup_preserved (k : String) (v r2 : Record) (c : Cache)
    (hkv : cacheLookup k c = some v) :
    cacheLookup k (cache_object r2 c).2 = some v := by
  rcases cache_object_cases r2 c with h | h <;> rw [h]
  · exact hkv
  · unfold cacheLookup at hkv ⊢
    cases hf : c.find? (fun p => p.1 == k) with
    | none => rw [hf] at hkv; simp at hkv
    | some p =>
      rw [hf] at hkv
      rw [List.find?_append, hf]
      simpa using hkv

/-- C7 (amended): for every record and every cache state in which the
record's hash is absent, `cache_object` returns `false` (not previously
cached) on the first call and `true` on the second, the second call
leaves the cache unchanged, the value stored under the hash after both
calls is the one written by the first call, and — on any cache state —
a hash, once written, is never overwritten by any later insert. -/
theorem c7_insert_if_absent (r : Record) (cache : Cache)
    (h : cache.any (fun p => p.1 == make_hash r) = false) :
    (cache_object r cache).1 = false ∧
    (cache_object r (cache_object r cache).2).1 = true ∧
    (cache_object r (cache_object r cache).2).2 = (cache_object r cache).2 ∧
    cacheLookup (make_hash r) (cache_object r cache).2 = some r ∧
    ∀ (k : String) (v r2 : Record) (c : Cache),
      cacheLookup k c = some v → cacheLookup k (cache_object r2 c).2 = some v := by
  have hc1 : cache_object r cache = (false, cache ++ [(make_hash r, r)]) := by
    simp [cache_object, h]
  have hmem : (cache ++ [(make_hash r, r)]).any
      (fun p => p.1 == make_hash r) = true := by
    simp [List.any_append]
  have hnone : cache.find? (fun p => p.1 == make_hash r) = none := by
    rw [List.find?_eq_none]
    intro x hx
    simpa using List.any_eq_false.mp h x hx
  refine ⟨by rw [hc1], ?_, ?_, ?_,
    fun k v r2 c hkv => cacheLookup_preserved k v r2 c hkv⟩
  · rw [hc1]; simp [cache_object, hmem]
  · rw [hc1]; simp [cache_object, hmem]
  · rw [hc1]; simp [cacheLookup, List.find?_append, hnone]

/-- C7 (counterexample): the claim quantifies over every cache state, but
on a cache that already binds the record's hash the first of the two
calls already returns `true`, not `false`. -/
theorem c7_counterexample :
    (cache_object [("org", "x")]
      [(make_hash [("org", "x")], [("org", "x")])]).1 = true := by
  decide

/-- Witness for C7 at the record `{org: x}` and the empty cache. -/
theorem c7_witness :
    (([] : Cache).any (fun p => p.1 == make_hash [("org", "x")]) = false) ∧
    ((cache_object [("org", "x")] ([] : Cache)).1 = false ∧
     (cache_object [("org", "x")] (cache_object [("org", "x")] ([] : Cache)).2).1 = true ∧
     (cache_object [("org", "x")] (cache_object [("org", "x")] ([] : Cache)).2).2 =
       (cache_object [("org", "x")] ([] : Cache)).2 ∧
     cacheLookup (make_hash [("org", "x")]) (cache_object [("org", "x")] ([] : Cache)).2 =
       some [("org", "x")] ∧
     ∀ (k : String) (v r2 : Record) (c : Cache),
       cacheLookup k c = some v → cacheLookup k (cache_object r2 c).2 = some v) :=
  ⟨rfl, c7_insert_if_absent [("org", "x")] [] rfl⟩

/-- C9: Report filter semantics: a record passes `match_search` exactly
when (the org filter list is empty, or the record's organization
case-insensitively contains one of the org filters) and (the summary
filter list is empty, or the record's summary case-insensitively
contains one of the summary filters); in particular with both filter
sets empty every record passes. -/
theorem c9_filter_semantics (r : Record) (org summary : List String) :
    (match_search r org summary = true ↔
      ((org = [] ∨
          ∃ t ∈ org, strContains (strLower (itemGet r "org")) (strLower t) = true) ∧
       (summary = [] ∨
          ∃ t ∈ summary,
            strContains (strLower (itemGet r "summary")) (strLower t) = true))) ∧
    match_search r [] [] = true := by
  constructor
  · simp [match_search, includes, Bool.and_eq_true, Bool.or_eq_true,
      List.any_eq_true, List.isEmpty_iff]
  · simp [match_search, includes]

/-- String append acts as list append on the underlying characters. -/
theorem strData_append (a b : String) : (a ++ b).data = a.data ++ b.data := rfl

/-- `[:-1]` after `split('-', 4)`: the first four hyphen tokens survive
when there are at least five, otherwise all but the last token. -/
theorem splitHyphenMax4_dropLast (s : String) :
    (splitHyphenMax4 s).dropLast =
      if 5 ≤ (pySplit '-' s).length then (pySplit '-' s).take 4
      else (pySplit '-' s).dropLast := by
  unfold splitHyphenMax4
  by_cases h : (pySplit '-' s).length ≤ 5
  · simp only [if_pos h]
    by_cases h5 : (pySplit '-' s).length = 5
    · rw [if_pos (by omega), List.dropLast_eq_take, h5]
    · rw [if_neg (by omega)]
  · simp only [if_neg h, if_pos (by omega : 5 ≤ (pySplit '-' s).length)]
    exact List.dropLast_concat

/-- C10: Implicit slug truncation: the slug part of the report file name
is at most the first four hyphen tokens of `slugify(title)`; with four or
fewer tokens the final token is dropped as well, so a single-token slug
yields an empty slug and a file name of the form `-<hash6>.txt`. -/
theorem c10_slug_truncation (base ts title summary : String) :
    (make_path base ts title summary =
      base ++ "/" ++ dateFmt ts ++ "/" ++
        "-".intercalate
          (if 5 ≤ (pySplit '-' (slugify title)).length
           then (pySplit '-' (slugify title)).take 4
           else (pySplit '-' (slugify title)).dropLast) ++ "-" ++
        strTake6 (make_hashStr summary) ++ ".txt") ∧
    ((pySplit '-' (slugify title)).length = 1 →
      make_path base ts title summary =
        base ++ "/" ++ dateFmt ts ++ "/-" ++ strTake6 (make_hashStr summary) ++ ".txt") := by
  constructor
  · unfold make_path
    rw [splitHyphenMax4_dropLast]
  · intro h1
    unfold make_path
    rw [splitHyphenMax4_dropLast, if_neg (by omega)]
    rcases hps : pySplit '-' (slugify title) with _ | ⟨p, ps⟩
    · rw [hps] at h1; simp at h1
    · rw [hps] at h1
      simp only [List.length_cons, Nat.add_left_eq_self, List.length_eq_zero] at h1
      subst h1
      apply String.ext
      simp [strData_append]
      rfl

/-- Witness for C10 at the single-token title "hello". -/
theorem c10_witness :
    (pySplit '-' (slugify "hello")).length = 1 ∧
    make_path "reports" "01.02.2020" "hello" "x" =
      "reports" ++ "/" ++ dateFmt "01.02.2020" ++ "/-" ++
        strTake6 (make_hashStr "x") ++ ".txt" :=
  ⟨by decide, (c10_slug_truncation "reports" "01.02.2020" "hello" "x").2 (by decide)⟩

/-- C6 (counterexample): the report path appends only the first six hex
characters of the summary's SHA-1, so distinct summaries can collide:
the summaries "74" and "c0r" are distinct, yet their digests
42b3625d... and 42b362e7... share the 6-character prefix and the two
`make_path` results are the same file name. -/
theorem c6_counterexample :
    make_path "reports" "01.01.2020" "a" "74" =
      make_path "reports" "01.01.2020" "a" "c0r" ∧
    ("74" : String) ≠ "c0r" := by
  constructor
  · decide
  · decide

/-- C6 (amended): for every base path, timestamp, title and pair of
summaries, the report file paths differ whenever the summaries' truncated
digests (the first six hex characters of the summary's SHA-1) differ —
collision resistance holds exactly up to the 24-bit truncated digest, not
for every pair of distinct summaries. -/
theorem c6_distinct_hash_prefix_distinct_path (base ts title s1 s2 : String)
    (h : strTake6 (make_hashStr s1) ≠ strTake6 (make_hashStr s2)) :
    make_path base ts title s1 ≠ make_path base ts title s2 := by
  intro heq
  apply h
  unfold make_path at heq
  have hd := congrArg String.data heq
  simp only [strData_append, List.append_assoc] at hd
  have hd2 := List.append_cancel_left (List.append_cancel_left
    (List.append_cancel_left (List.append_cancel_left
      (List.append_cancel_left (List.append_cancel_left hd)))))
  exact String.ext (List.append_cancel_right hd2)

/-- Witness for C6 (amended) at the summaries "a" and "b". -/
theorem c6_witness :
    strTake6 (make_hashStr "a") ≠ strTake6 (make_hashStr "b") ∧
    make_path "reports" "01.01.2020" "t" "a" ≠ make_path "reports" "01.01.2020" "t" "b" :=
  ⟨by decide, c6_distinct_hash_prefix_distinct_path "reports" "01.01.2020" "t" "a" "b"
    (by decide)⟩

/-- C1: Termination on cache hit: when the crawl stream decomposes as
`pre ++ r :: post` with every record of `pre` novel and `r`'s hash
already cached by then, the loop of `fetch_new_events` submits exactly
`pre ++ [r]` to `cache_object` — nothing after the first pre-existing
record, on the same page or any later page, is ever submitted for
insertion, however novel. -/
theorem c1_cache_hit_stops (fetchSummary : Record → String)
    (pages : List (List Record)) (cache : Cache) (pre post : List Record)
    (r : Record)
    (hstream : scrap_site fetchSummary pages = pre ++ r :: post)
    (hpre : allNovel pre cache = true)
    (hhit : (cache_object r (cacheAfter pre cache)).1 = true) :
    submittedRecords (scrap_site fetchSummary pages) cache = pre ++ [r] := by
  rw [hstream]
  clear hstream
  induction pre generalizing cache with
  | nil =>
    rcases hco : cache_object r cache with ⟨b, c⟩
    rw [cacheAfter, hco] at hhit
    simp only at hhit
    subst hhit
    simp [submittedRecords, hco]
  | cons p ps ih =>
    rcases hcp : cache_object p cache with ⟨b, c⟩
    rw [allNovel, hcp] at hpre
    cases b with
    | true => simp at hpre
    | false =>
      rw [cacheAfter, hcp] at hhit
      have hpre2 : allNovel ps c = true := hpre
      have hhit2 : (cache_object r (cacheAfter ps c)).1 = true := hhit
      simp only [List.cons_append, submittedRecords, hcp]
      show p :: submittedRecords (ps ++ r :: post) c = p :: (ps ++ [r])
      rw [ih c hpre2 hhit2]

/-- Witness for C1: a two-page crawl (pages parsing to four and two
records, so the aliased generator streams the second and fourth records
of page one and the second record of page two) whose second stream
record is already cached; only the first two stream records are
submitted, and the later page's novel record is never touched. -/
theorem c1_witness :
    allNovel [eRec "u2"] [(make_hash (eRec "u1"), eRec "u1")] = true ∧
    submittedRecords
      (scrap_site (fun _ => "s")
        [[pRec "x0", pRec "u2", pRec "x2", pRec "u1"], [pRec "y0", pRec "u4"]])
      [(make_hash (eRec "u1"), eRec "u1")] = [eRec "u2", eRec "u1"] :=
  ⟨by decide,
    c1_cache_hit_stops (fun _ => "s")
      [[pRec "x0", pRec "u2", pRec "x2", pRec "u1"], [pRec "y0", pRec "u4"]]
      [(make_hash (eRec "u1"), eRec "u1")] [eRec "u2"] [eRec "u4"]
      (eRec "u1") (by decide) (by decide) (by decide)⟩

/-- C2 (code bug): on a clean run that ends because a page parses to no
usable items, the printed count is the last `enumerate` index, not the
number of insertions: pages parsing to records [u1, u2] and then [u3]
stream exactly one enriched record (of u2 — the generator aliasing in
`deduplicate` drops u1, and the one-record second page yields nothing
and stops the crawl); the loop caches that one record but prints
`Cached 0 new records.` (the claim — and the message the code itself
prints — say the count equals the number of newly inserted records). -/
theorem c2_count_off_by_one :
    (fetch_new_events (fun _ => "s") [[pRec "u1", pRec "u2"], [pRec "u3"]] []).1 = 0 ∧
    insertedCount (scrap_site (fun _ => "s") [[pRec "u1", pRec "u2"], [pRec "u3"]]) [] = 1 ∧
    (fetch_new_events (fun _ => "s") [[pRec "u1", pRec "u2"], [pRec "u3"]] []).2 =
      [(make_hash (eRec "u2"), eRec "u2")] := by
  refine ⟨by decide, by decide, by decide⟩

/-- C3: End-to-end example: with the cache holding exactly the records
of hashes h1..h5 (inserted in that order) and a single crawl page whose
enriched records hash to h6, h3, h7 (h6 novel, the second record's hash
equal to h3), the run inserts the h6 record, detects h3's pre-existence
and stops, never submits the third record, and reports a count of
exactly 1. -/
theorem c3_end_to_end (cr1 cr2 cr3 cr4 cr5 : Record)
    (fetchSummary : Record → String) (page : List Record) (x y z : Record)
    (cache : Cache)
    (hcache : cache = [(make_hash cr1, cr1), (make_hash cr2, cr2),
      (make_hash cr3, cr3), (make_hash cr4, cr4), (make_hash cr5, cr5)])
    (hstream : scrap_site fetchSummary [page] = [x, y, z])
    (hnew : cache.any (fun p => p.1 == make_hash x) = false)
    (hdup : make_hash y = make_hash cr3) :
    (fetch_new_events fetchSummary [page] cache).1 = 1 ∧
    (fetch_new_events fetchSummary [page] cache).2 = cache ++ [(make_hash x, x)] ∧
    submittedRecords (scrap_site fetchSummary [page]) cache = [x, y] := by
  have hx : cache_object x cache = (false, cache ++ [(make_hash x, x)]) := by
    simp [cache_object, hnew]
  have hy : (cache ++ [(make_hash x, x)]).any
      (fun p => p.1 == make_hash y) = true := by
    subst hcache
    simp [List.any_append, hdup]
  have hy2 : cache_object y (cache ++ [(make_hash x, x)]) =
      (true, cache ++ [(make_hash x, x)]) := by
    simp [cache_object, hy]
  refine ⟨?_, ?_, ?_⟩
  · unfold fetch_new_events
    rw [hstream]
    simp [fetchFrom, hx, hy2]
  · unfold fetch_new_events
    rw [hstream]
    simp [fetchFrom, hx, hy2]
  · rw [hstream]
    simp [submittedRecords, hx, hy2]

/-- Witness for C3 with a cache of five records whose third entry is the
enriched record of url "a2", and a page parsing to six records so that
the aliased generator streams the enriched records of urls a1, a2, a3. -/
theorem c3_witness :
    (cache5.any (fun p => p.1 == make_hash (eRec "a1")) = false) ∧
    (fetch_new_events (fun _ => "s")
        [[pRec "q0", pRec "a1", pRec "q2", pRec "a2", pRec "q4", pRec "a3"]] cache5).1 = 1 ∧
    (fetch_new_events (fun _ => "s")
        [[pRec "q0", pRec "a1", pRec "q2", pRec "a2", pRec "q4", pRec "a3"]] cache5).2 =
      cache5 ++ [(make_hash (eRec "a1"), eRec "a1")] ∧
    submittedRecords
      (scrap_site (fun _ => "s")
        [[pRec "q0", pRec "a1", pRec "q2", pRec "a2", pRec "q4", pRec "a3"]])
      cache5 = [eRec "a1", eRec "a2"] :=
  ⟨by decide,
    c3_end_to_end (cRec "c1") (cRec "c2") (eRec "a2") (cRec "c4") (cRec "c5")
      (fun _ => "s") [pRec "q0", pRec "a1", pRec "q2", pRec "a2", pRec "q4", pRec "a3"]
      (eRec "a1") (eRec "a2") (eRec "a3") cache5
      rfl (by decide) (by decide) rfl⟩

/-- Sanity: the embedded `scrap_site` reproduces the observed program
stream: a page parsing to five distinct records is streamed as exactly
the enriched second and fourth records (the generator aliasing drops the
rest). -/
theorem scrap_site_stream_vector :
    scrap_site (fun _ => "s")
      [[pRec "v0", pRec "v1", pRec "v2", pRec "v3", pRec "v4"]] =
      [eRec "v1", eRec "v3"] := by
  decide

/-- C5 (code bug evaluation): at its only call site, `deduplicate` feeds
`zip(map(make_hash, items), items)` from the single one-shot
`parse_page` generator, so each drawn hash is paired with the next
record: a page of three distinct records (N = 3, K = 0 field-identical
duplicates of earlier records) yields only the second record, keyed by
the first record's hash, instead of the claimed N − K = 3 first-seen
survivors — and a one-record page yields nothing at all. -/
theorem c5_generator_aliasing :
    deduplicate [cRec "w1", cRec "w2", cRec "w3"] = [cRec "w2"] ∧
    numDups [cRec "w1", cRec "w2", cRec "w3"] [] = 0 ∧
    ([cRec "w1", cRec "w2", cRec "w3"] : List Record).length = 3 ∧
    deduplicate [cRec "w1"] = [] := by
  refine ⟨by decide, by decide, rfl, by decide⟩
